import Mathlib

/-!
Verification of the FastMCP + Auth0 authentication gate: a shallow embedding of
the token-extraction, session-construction and challenge-response logic of the
server's authenticate entry point, of its base-URL derivation, and of the
per-tool scope gate, together with theorems settling the specified properties.

The network-backed SDK calls (verifyAccessToken of auth0-api-js and its
getToken helper) are modelled as oracle parameters: the surrounding control
flow is embedded faithfully from the source.
-/

namespace FastMCPAuth0

/-- JS truthiness of an optional string (env value or joined header):
undefined and the empty string are falsy. -/
def truthy : Option String → Bool
  | some s => s ≠ ""
  | none => false

/-- JS logical-or on optional strings, as in the expression
request.headers.host || request.headers["x-forwarded-host"]:
the first operand is kept unless it is undefined or the empty string. -/
def jsStrOr : Option String → Option String → Option String
  | some s, b => if s = "" then b else some s
  | none, b => b

/-- The value a JS if-guard accepts from an optional string: the string when
truthy, nothing otherwise. -/
def truthyStr : Option String → Option String
  | some s => if s = "" then none else some s
  | none => none

/-- JS s.startsWith(pre) on code units. -/
def jsStartsWith (s pre : String) : Bool :=
  pre.data.isPrefixOf s.data

/-- JS s.substring(n): the string without its first n code units. -/
def jsDrop (s : String) (n : Nat) : String :=
  String.mk (s.data.drop n)

/-- The whitespace characters JS trim removes that can occur in a header
value. -/
def jsIsSpace (c : Char) : Bool :=
  c == ' ' || c == '\t' || c == '\n' || c == '\r'

/-- JS s.trim(): whitespace removed from both ends. -/
def jsTrim (s : String) : String :=
  String.mk (((s.data.dropWhile jsIsSpace).reverse.dropWhile jsIsSpace).reverse)

/-- A raw Node header value: a string or an array of strings. -/
inductive HeaderValue where
  | str : String → HeaderValue
  | arr : List String → HeaderValue
deriving DecidableEq, Repr

/-- The request headers the authenticate flow reads. Node exposes header keys
lowercased; the source nevertheless also reads headers.Authorization, kept
here as authorizationCap. -/
structure Headers where
  authorization : Option HeaderValue
  authorizationCap : Option HeaderValue
  host : Option String
  xForwardedHost : Option String
  xForwardedProto : Option String
deriving DecidableEq, Repr

/-- The slice of an IncomingMessage the embedded code depends on. The request
url is only inspected for logging (discovery-endpoint warnings) in the source
and does not influence the outcome. -/
structure Request where
  headers : Headers
  url : Option String
deriving DecidableEq, Repr

/-- The configuration surface read from the environment: the optional
MCP_SERVER_URL override and the port. -/
structure Config where
  mcpServerUrlEnv : Option String
  port : Nat
deriving DecidableEq, Repr

/-- The MCP_SERVER_URL constant: process.env.MCP_SERVER_URL with the
local default http://localhost:PORT (nullish coalescing, so a set-but-empty
environment value is kept as the empty string). -/
def MCP_SERVER_URL (cfg : Config) : String :=
  match cfg.mcpServerUrlEnv with
  | some u => u
  | none => "http://localhost:" ++ toString cfg.port

/-- getBaseUrl of the source: prefer a truthy MCP_SERVER_URL environment
value; else derive protocol://host from the Host / X-Forwarded-Host and
X-Forwarded-Proto headers; else fall back to MCP_SERVER_URL. -/
def getBaseUrl (cfg : Config) (request : Request) : String :=
  if truthy cfg.mcpServerUrlEnv then MCP_SERVER_URL cfg
  else
    match truthyStr (jsStrOr request.headers.host request.headers.xForwardedHost) with
    | some host =>
        let protocol :=
          if request.headers.xForwardedProto = some "https" then "https"
          else if request.headers.xForwardedProto = some "http" then "http"
          else if jsStartsWith (MCP_SERVER_URL cfg) "https" then "https" else "http"
        protocol ++ "://" ++ host
    | none => MCP_SERVER_URL cfg

/-- The decoded claims payload returned by the token verifier. A claim that is
absent or not a string (the source guards with typeof checks) is modelled as
none; the numeric exp claim is seconds since epoch. -/
structure Claims where
  sub : Option String
  client_id : Option String
  azp : Option String
  scope : Option String
  exp : Option Nat
  name : Option String
  email : Option String
deriving DecidableEq, Repr

/-- The extra identity attributes of a session. -/
structure SessionExtra where
  sub : Option String
  client_id : Option String
  azp : Option String
  name : Option String
  email : Option String
deriving DecidableEq, Repr

/-- The FastMCP-compatible AuthInfo session the entry point returns. -/
structure FastMCPAuthSession where
  token : String
  clientId : String
  scopes : List String
  expiresAt : Option Nat
  extra : SessionExtra
deriving DecidableEq, Repr

/-- isNonEmptyString of the source: a string value of positive length. -/
def isNonEmptyString : Option String → Bool
  | some s => decide (0 < s.length)
  | none => false

/-- The error classes the authenticate flow distinguishes in its catch block:
InvalidRequestError and VerifyAccessTokenError of auth0-api-js,
InvalidTokenError and InsufficientScopeError of the MCP SDK, and anything
else thrown. -/
inductive AuthError where
  | invalidRequest (message : String)
  | verifyAccessTokenFailed (message : String)
  | invalidToken (message : String)
  | insufficientScope (message : String)
  | other (message : String)
deriving DecidableEq, Repr

/-- The client-visible HTTP response the catch block of authenticate throws:
status, status text and the optional WWW-Authenticate header. -/
structure HttpResponse where
  status : Nat
  statusText : String
  wwwAuthenticate : Option String
deriving DecidableEq, Repr

/-- The conditional Array.isArray(raw) ? raw[0] : raw of the source (indexing
an empty JS array yields undefined). -/
def headerFirst : Option HeaderValue → Option String
  | some (.str s) => some s
  | some (.arr l) => l.head?
  | none => none

/-- JS logical-or on raw header values, as in
request.headers.authorization || request.headers.Authorization:
undefined and the empty string are falsy, an array (even empty) is truthy. -/
def jsHeaderOr : Option HeaderValue → Option HeaderValue → Option HeaderValue
  | some (.str s), b => if s = "" then b else some (.str s)
  | some (.arr l), _ => some (.arr l)
  | none, b => b

/-- The Bearer-credential extraction of authenticate: the Authorization header
value must be a truthy string starting with "Bearer "; the access token is the
remainder after that prefix (substring(7)), trimmed. -/
def extractBearerToken (h : Headers) : Option String :=
  match headerFirst (jsHeaderOr h.authorization h.authorizationCap) with
  | some s =>
      if s ≠ "" ∧ jsStartsWith s "Bearer " then some (jsTrim (jsDrop s 7)) else none
  | none => none

/-- JS String.split with the single-space separator, on the character list:
each space ends the current segment, so consecutive spaces yield empty
segments and the empty input yields one empty segment. -/
def splitSpaceChars : List Char → List (List Char)
  | [] => [[]]
  | c :: rest =>
      if c = ' ' then [] :: splitSpaceChars rest
      else
        match splitSpaceChars rest with
        | t :: ts => (c :: t) :: ts
        | [] => [[c]]

/-- JS s.split(" ") on a string. -/
def jsSplitSpace (s : String) : List String :=
  (splitSpaceChars s.data).map String.mk

/-- The scopes field of the constructed session: a string scope claim is split
on single spaces and the empty tokens dropped (filter(Boolean)); a missing or
non-string scope claim yields the empty list. -/
def sessionScopes : Option String → List String
  | some s => (jsSplitSpace s).filter (fun t => t != "")
  | none => []

/-- The session object literal of the source, for a client identity already
selected: token, clientId, scopes, a truthiness-guarded expiresAt, and the
extra attributes each guarded by isNonEmptyString. -/
def buildSession (decoded : Claims) (accessToken : String) (clientId : String) :
    FastMCPAuthSession :=
  { token := accessToken
    clientId := clientId
    scopes := sessionScopes decoded.scope
    expiresAt :=
      match decoded.exp with
      | some e => if e ≠ 0 then some e else none
      | none => none
    extra :=
      { sub := decoded.sub
        client_id := if isNonEmptyString decoded.client_id then decoded.client_id else none
        azp := if isNonEmptyString decoded.azp then decoded.azp else none
        name := if isNonEmptyString decoded.name then decoded.name else none
        email := if isNonEmptyString decoded.email then decoded.email else none } }

/-- The claim-validation and session-construction tail of authenticate, run on
the verified payload: the subject check, the client_id / azp selection, then
the session literal. -/
def sessionFromClaims (decoded : Claims) (accessToken : String) :
    Except AuthError FastMCPAuthSession :=
  if !isNonEmptyString decoded.sub then
    .error (.invalidToken "Token is missing required subject (sub) claim")
  else
    let clientId : Option String :=
      if isNonEmptyString decoded.client_id then decoded.client_id
      else if isNonEmptyString decoded.azp then decoded.azp
      else none
    match clientId with
    | none =>
        .error (.invalidToken
          "Token is missing required client identification (client_id or azp claim).")
    | some cid => .ok (buildSession decoded accessToken cid)

/-- The try block of authenticate: extract the Bearer credential (failing with
the InvalidRequestError of the source when absent), call getToken purely as a
validation step whose result and errors are discarded, verify the extracted
token, and build the session. verify and getTok are oracles for the
network-backed SDK calls. -/
def authenticateCore (verify : String → Except AuthError Claims)
    (getTok : Headers → Except String String) (request : Request) :
    Except AuthError FastMCPAuthSession :=
  match extractBearerToken request.headers with
  | none => .error (.invalidRequest "No Bearer token found in request")
  | some accessToken =>
      let _ := getTok request.headers
      match verify accessToken with
      | .error e => .error e
      | .ok decoded => sessionFromClaims decoded accessToken

/-- The characters of a URL up to and including the scheme separator, then the
authority up to the next slash: the URL's origin. -/
def urlOriginChars : List Char → List Char
  | ':' :: '/' :: '/' :: rest => ':' :: '/' :: '/' :: rest.takeWhile (fun c => c != '/')
  | c :: rest => c :: urlOriginChars rest
  | [] => []

/-- Modelled from the spec: the MCP SDK helper getOAuthProtectedResourceMetadataUrl
(a dependency, not part of this repository) resolves the fixed path
/.well-known/oauth-protected-resource against the server URL, i.e. appends it
to the URL's origin (scheme://authority). -/
def urlOrigin (u : String) : String :=
  String.mk (urlOriginChars u.data)

/-- The protected-resource metadata discovery URL under a server URL. -/
def getOAuthProtectedResourceMetadataUrl (serverUrl : String) : String :=
  urlOrigin serverUrl ++ "/.well-known/oauth-protected-resource"

/-- The WWW-Authenticate header value built by the catch block. -/
def wwwAuthenticateValue (message resourceMetadataUrl : String) : String :=
  "Bearer error=\"invalid_token\", error_description=\"" ++ message ++
    "\", resource_metadata=\"" ++ resourceMetadataUrl ++ "\""

/-- The catch block of authenticate: InvalidRequestError, VerifyAccessTokenError
and InvalidTokenError map to 401 with the WWW-Authenticate discovery header;
InsufficientScopeError to a bare 403; anything else to a bare 500. -/
def handleAuthError (baseUrl : String) : AuthError → HttpResponse
  | .invalidRequest message =>
      { status := 401, statusText := "Unauthorized",
        wwwAuthenticate := some (wwwAuthenticateValue message
          (getOAuthProtectedResourceMetadataUrl baseUrl)) }
  | .verifyAccessTokenFailed message =>
      { status := 401, statusText := "Unauthorized",
        wwwAuthenticate := some (wwwAuthenticateValue message
          (getOAuthProtectedResourceMetadataUrl baseUrl)) }
  | .invalidToken message =>
      { status := 401, statusText := "Unauthorized",
        wwwAuthenticate := some (wwwAuthenticateValue message
          (getOAuthProtectedResourceMetadataUrl baseUrl)) }
  | .insufficientScope _ =>
      { status := 403, statusText := "Forbidden", wwwAuthenticate := none }
  | .other _ =>
      { status := 500, statusText := "Internal Server Error", wwwAuthenticate := none }

/-- The authenticate entry point: the base URL is computed once up front; the
try block runs, and on failure the catch block throws the HTTP response built
by handleAuthError for that base URL. -/
def authenticate (cfg : Config) (verify : String → Except AuthError Claims)
    (getTok : Headers → Except String String) (request : Request) :
    Except HttpResponse FastMCPAuthSession :=
  let baseUrl := getBaseUrl cfg request
  match authenticateCore verify getTok request with
  | .ok session => .ok session
  | .error e => .error (handleAuthError baseUrl e)

/-- The scopes the example tools require. -/
def MCP_TOOL_SCOPES : List String := ["tool:greet", "tool:whoami"]

/-- hasAllScopes of the tools module: the canAccess predicate for a required
scope list, true when every required scope is included in the session's
scopes. -/
def hasAllScopes (requiredScopes : List String) : FastMCPAuthSession → Bool :=
  fun auth =>
    let userScopes := auth.scopes
    requiredScopes.all (fun scope => userScopes.contains scope)

/-! Definitions following the spec's words, for comparison with the embedded
source code. -/

/-- From the spec's words: an optional attribute is passed through only when
present and a non-empty string; otherwise it is omitted. -/
def nonEmptyOnly : Option String → Option String
  | some v => if v = "" then none else some v
  | none => none

/-- From the spec's words: the client identity is the client-identifier claim
when present and non-empty, else the authorized-party claim when present and
non-empty. -/
def specClientId (decoded : Claims) : Option String :=
  match nonEmptyOnly decoded.client_id with
  | some c => some c
  | none => nonEmptyOnly decoded.azp

/-- The configured default scheme: https when the default server URL starts
with https, else http. -/
def defaultScheme (cfg : Config) : String :=
  if jsStartsWith (MCP_SERVER_URL cfg) "https" then "https" else "http"

/-- The scheme of claim C7 as written: taken from X-Forwarded-Proto whenever
that header is present, defaulting only when it is absent. -/
def schemeClaimed (cfg : Config) (xfp : Option String) : String :=
  match xfp with
  | some p => p
  | none => defaultScheme cfg

/-- Claim C7's base-URL computation as written: the configured URL when one is
configured, else scheme://host from the forwarding headers, else the default
server URL. -/
def getBaseUrlClaimed (cfg : Config) (request : Request) : String :=
  if truthy cfg.mcpServerUrlEnv then MCP_SERVER_URL cfg
  else
    match truthyStr (jsStrOr request.headers.host request.headers.xForwardedHost) with
    | some host => schemeClaimed cfg request.headers.xForwardedProto ++ "://" ++ host
    | none => MCP_SERVER_URL cfg

/-- The amended scheme rule: taken from X-Forwarded-Proto only when that value
is exactly https or http; for any other or absent value, the configured
default scheme. -/
def schemeAmended (cfg : Config) (xfp : Option String) : String :=
  match xfp with
  | some p => if p = "https" ∨ p = "http" then p else defaultScheme cfg
  | none => defaultScheme cfg

/-- The amended base-URL computation of claim C7. -/
def getBaseUrlAmendedSpec (cfg : Config) (request : Request) : String :=
  if truthy cfg.mcpServerUrlEnv then MCP_SERVER_URL cfg
  else
    match truthyStr (jsStrOr request.headers.host request.headers.xForwardedHost) with
    | some host => schemeAmended cfg request.headers.xForwardedProto ++ "://" ++ host
    | none => MCP_SERVER_URL cfg

/-! Concrete inputs used by witnesses and counterexamples. -/

/-- A local configuration with no MCP_SERVER_URL override. -/
def cfgLocal : Config := { mcpServerUrlEnv := none, port := 3001 }

/-- A request with no Authorization header at all. -/
def reqNoAuth : Request :=
  { headers :=
      { authorization := none
        authorizationCap := none
        host := none
        xForwardedHost := none
        xForwardedProto := none }
    url := some "/mcp" }

/-- A proxied request whose X-Forwarded-Proto carries a non-HTTP scheme. -/
def reqForwardedFtp : Request :=
  { headers :=
      { authorization := none
        authorizationCap := none
        host := some "example.com"
        xForwardedHost := none
        xForwardedProto := some "ftp" }
    url := some "/mcp" }

/-- A request with a well-formed Bearer Authorization header (note the
trailing blank that trimming removes). -/
def reqBearer : Request :=
  { headers :=
      { authorization := some (.str "Bearer abc.def.ghi ")
        authorizationCap := none
        host := none
        xForwardedHost := none
        xForwardedProto := none }
    url := some "/mcp" }

/-- A fully-populated verified claims payload. -/
def claimsFull : Claims :=
  { sub := some "auth0|user1", client_id := some "client-1", azp := some "azp-1",
    scope := some "tool:whoami tool:greet", exp := some 1735689600,
    name := some "Ada", email := some "ada@example.com" }

/-- A claims payload whose subject is absent while everything else is valid. -/
def claimsNoSub : Claims :=
  { sub := none, client_id := some "client-1", azp := some "azp-1",
    scope := some "tool:whoami", exp := some 1735689600,
    name := some "Ada", email := some "ada@example.com" }

/-- A claims payload with no usable client_id but a non-empty azp. -/
def claimsAzpOnly : Claims :=
  { sub := some "auth0|user1", client_id := some "", azp := some "azp-1",
    scope := none, exp := none, name := none, email := none }

/-- A verifier oracle that always fails (never reached on credential-less
requests). -/
def verifyNever : String → Except AuthError Claims :=
  fun _ => .error (.other "unreachable")

/-- A verifier oracle that accepts every token with the full payload. -/
def verifyFull : String → Except AuthError Claims :=
  fun _ => .ok claimsFull

/-- A getToken oracle that throws, as the SDK helper does on malformed
headers. -/
def getTokenNoop : Headers → Except String String :=
  fun _ => .error "no token"

/-- A getToken oracle that succeeds with an unrelated value. -/
def getTokenOk : Headers → Except String String :=
  fun _ => .ok "ignored"

/-! Helper lemmas shared by the claim theorems. -/

theorem isNonEmptyString_some_iff (c : String) :
    isNonEmptyString (some c) = true ↔ c ≠ "" := by
  simp only [isNonEmptyString, decide_eq_true_eq]
  constructor
  · intro h hc
    subst hc
    exact absurd h (by decide)
  · intro h
    cases hl : c.length with
    | zero => exact absurd (String.ext (List.length_eq_zero.mp hl)) h
    | succ k => omega

theorem isNonEmptyString_iff (o : Option String) :
    isNonEmptyString o = true ↔ ∃ s, o = some s ∧ s ≠ "" := by
  cases o with
  | none => simp [isNonEmptyString]
  | some c => simp [isNonEmptyString_some_iff]

theorem nonEmptyOnly_eq_guard (o : Option String) :
    nonEmptyOnly o = if isNonEmptyString o then o else none := by
  cases o with
  | none => rfl
  | some c =>
    by_cases hc : c = ""
    · subst hc
      rfl
    · have : isNonEmptyString (some c) = true := (isNonEmptyString_some_iff c).mpr hc
      simp [nonEmptyOnly, this, hc]

theorem sessionFromClaims_ok_elim (decoded : Claims) (accessToken : String)
    (session : FastMCPAuthSession)
    (hok : sessionFromClaims decoded accessToken = .ok session) :
    isNonEmptyString decoded.sub = true ∧
    ∃ cid, session = buildSession decoded accessToken cid ∧
      ((isNonEmptyString decoded.client_id = true ∧ decoded.client_id = some cid) ∨
       (isNonEmptyString decoded.client_id = false ∧ isNonEmptyString decoded.azp = true ∧
         decoded.azp = some cid)) := by
  unfold sessionFromClaims at hok
  cases hs : isNonEmptyString decoded.sub with
  | false => simp [hs] at hok
  | true =>
    refine ⟨rfl, ?_⟩
    simp only [hs, Bool.not_true, Bool.false_eq_true, if_false] at hok
    cases hci : isNonEmptyString decoded.client_id with
    | true =>
      obtain ⟨c, hc, -⟩ := (isNonEmptyString_iff _).mp hci
      rw [hci] at hok
      simp only [if_true, hc] at hok
      obtain rfl : buildSession decoded accessToken c = session := by
        simpa using hok
      exact ⟨c, rfl, Or.inl ⟨rfl, hc⟩⟩
    | false =>
      rw [hci] at hok
      simp only [Bool.false_eq_true, if_false] at hok
      cases ha : isNonEmptyString decoded.azp with
      | false =>
        rw [ha] at hok
        simp at hok
      | true =>
        obtain ⟨a, hc, -⟩ := (isNonEmptyString_iff _).mp ha
        rw [ha] at hok
        simp only [if_true, hc] at hok
        obtain rfl : buildSession decoded accessToken a = session := by
          simpa using hok
        exact ⟨a, rfl, Or.inr ⟨rfl, rfl, hc⟩⟩

theorem sessionFromClaims_ok_intro (decoded : Claims) (accessToken : String)
    (hsub : isNonEmptyString decoded.sub = true)
    (hcli : isNonEmptyString decoded.client_id = true ∨ isNonEmptyString decoded.azp = true) :
    ∃ session, sessionFromClaims decoded accessToken = .ok session := by
  unfold sessionFromClaims
  simp only [hsub, Bool.not_true, Bool.false_eq_true, if_false]
  cases hci : isNonEmptyString decoded.client_id with
  | true =>
    obtain ⟨c, hc, -⟩ := (isNonEmptyString_iff _).mp hci
    exact ⟨buildSession decoded accessToken c, by simp [hc]⟩
  | false =>
    have ha : isNonEmptyString decoded.azp = true := by
      rcases hcli with h | h
      · rw [hci] at h
        exact absurd h (by simp)
      · exact h
    obtain ⟨a, hc, -⟩ := (isNonEmptyString_iff _).mp ha
    refine ⟨buildSession decoded accessToken a, ?_⟩
    rw [hc] at ha
    simp [hci, hc, ha]

theorem authenticate_ok_iff_core (cfg : Config) (verify : String → Except AuthError Claims)
    (getTok : Headers → Except String String) (request : Request)
    (session : FastMCPAuthSession) :
    authenticate cfg verify getTok request = .ok session ↔
      authenticateCore verify getTok request = .ok session := by
  unfold authenticate
  cases authenticateCore verify getTok request <;> simp

theorem authenticateCore_ok_iff (verify : String → Except AuthError Claims)
    (getTok : Headers → Except String String) (request : Request)
    (session : FastMCPAuthSession) :
    authenticateCore verify getTok request = .ok session ↔
      ∃ tok decoded, extractBearerToken request.headers = some tok ∧
        verify tok = .ok decoded ∧ sessionFromClaims decoded tok = .ok session := by
  cases he : extractBearerToken request.headers with
  | none =>
    unfold authenticateCore
    rw [he]
    simp [he]
  | some tok =>
    unfold authenticateCore
    rw [he]
    cases hv : verify tok with
    | error e => simp [he, hv]
    | ok decoded => simp [he, hv]

theorem authenticateCore_some_token (verify : String → Except AuthError Claims)
    (getTok : Headers → Except String String) (request : Request) (tok : String)
    (hext : extractBearerToken request.headers = some tok) :
    authenticateCore verify getTok request =
      match verify tok with
      | .error e => .error e
      | .ok decoded => sessionFromClaims decoded tok := by
  unfold authenticateCore
  rw [hext]

theorem protocol_eq_schemeAmended (cfg : Config) (xfp : Option String) :
    (if xfp = some "https" then "https"
     else if xfp = some "http" then "http"
     else if jsStartsWith (MCP_SERVER_URL cfg) "https" then "https" else "http") =
      schemeAmended cfg xfp := by
  unfold schemeAmended defaultScheme
  cases xfp with
  | none => simp
  | some p =>
    by_cases h1 : p = "https"
    · simp [h1]
    · by_cases h2 : p = "http"
      · simp [h1, h2]
      · simp [h1, h2]

/-! The claim theorems. -/

/-- C1: authenticate returns an AuthenticatedSession exactly when a Bearer credential is
present, token verification succeeds on it, the subject claim is a non-empty string and
a client identity (client_id or azp) is a non-empty string; and every returned session
carries that non-empty identity — no partial or degraded session is ever returned. -/
theorem authenticate_session_iff (cfg : Config)
    (verify : String → Except AuthError Claims) (getTok : Headers → Except String String)
    (request : Request) :
    ((∃ session, authenticate cfg verify getTok request = .ok session) ↔
      ∃ tok decoded, extractBearerToken request.headers = some tok ∧
        verify tok = .ok decoded ∧ isNonEmptyString decoded.sub = true ∧
        (isNonEmptyString decoded.client_id = true ∨ isNonEmptyString decoded.azp = true)) ∧
    (∀ session, authenticate cfg verify getTok request = .ok session →
      session.clientId ≠ "" ∧ ∃ subj, session.extra.sub = some subj ∧ subj ≠ "") := by
  constructor
  · constructor
    · rintro ⟨session, hs⟩
      rw [authenticate_ok_iff_core] at hs
      obtain ⟨tok, decoded, he, hv, hsess⟩ := (authenticateCore_ok_iff _ _ _ _).mp hs
      obtain ⟨hsub, cid, -, hcase⟩ := sessionFromClaims_ok_elim decoded tok session hsess
      refine ⟨tok, decoded, he, hv, hsub, ?_⟩
      rcases hcase with ⟨h1, -⟩ | ⟨-, h2, -⟩
      · exact Or.inl h1
      · exact Or.inr h2
    · rintro ⟨tok, decoded, he, hv, hsub, hcli⟩
      obtain ⟨session, hsess⟩ := sessionFromClaims_ok_intro decoded tok hsub hcli
      exact ⟨session, (authenticate_ok_iff_core _ _ _ _ _).mpr
        ((authenticateCore_ok_iff _ _ _ _).mpr ⟨tok, decoded, he, hv, hsess⟩)⟩
  · intro session hs
    rw [authenticate_ok_iff_core] at hs
    obtain ⟨tok, decoded, he, hv, hsess⟩ := (authenticateCore_ok_iff _ _ _ _).mp hs
    obtain ⟨hsub, cid, rfl, hcase⟩ := sessionFromClaims_ok_elim decoded tok session hsess
    constructor
    · rcases hcase with ⟨h1, hc⟩ | ⟨-, h2, hc⟩
      · obtain ⟨c, hc', hne⟩ := (isNonEmptyString_iff _).mp h1
        rw [hc] at hc'
        obtain rfl : cid = c := by simpa using hc'
        exact hne
      · obtain ⟨c, hc', hne⟩ := (isNonEmptyString_iff _).mp h2
        rw [hc] at hc'
        obtain rfl : cid = c := by simpa using hc'
        exact hne
    · obtain ⟨subj, hsome, hne⟩ := (isNonEmptyString_iff _).mp hsub
      exact ⟨subj, hsome, hne⟩

/-- C2: the scope gate authorizes exactly when every required scope is a member of the
session's scopes, and an empty required-scope list always authorizes. -/
theorem hasAllScopes_iff_subset (requiredScopes : List String)
    (auth : FastMCPAuthSession) :
    (hasAllScopes requiredScopes auth = true ↔
      ∀ scope ∈ requiredScopes, scope ∈ auth.scopes) ∧
    hasAllScopes [] auth = true := by
  constructor
  · simp [hasAllScopes, List.all_eq_true]
  · rfl

/-- C3: no-credential, verification-failure and invalid-token failures map to 401 with
the WWW-Authenticate header of the exact form Bearer error="invalid_token",
error_description="message", resource_metadata="discoveryUrl", the discovery URL being
the protected-resource metadata path under the base URL; an insufficient-scope failure
maps to a bare 403; any other failure to a bare 500; and authenticate renders every
failure of its try block through exactly this mapping at the request's effective base
URL. -/
theorem challenge_response_mapping (cfg : Config)
    (verify : String → Except AuthError Claims) (getTok : Headers → Except String String)
    (request : Request) (baseUrl message : String) :
    handleAuthError baseUrl (.invalidRequest message) =
      { status := 401, statusText := "Unauthorized",
        wwwAuthenticate := some ("Bearer error=\"invalid_token\", error_description=\""
          ++ message ++ "\", resource_metadata=\""
          ++ getOAuthProtectedResourceMetadataUrl baseUrl ++ "\"") } ∧
    handleAuthError baseUrl (.verifyAccessTokenFailed message) =
      { status := 401, statusText := "Unauthorized",
        wwwAuthenticate := some ("Bearer error=\"invalid_token\", error_description=\""
          ++ message ++ "\", resource_metadata=\""
          ++ getOAuthProtectedResourceMetadataUrl baseUrl ++ "\"") } ∧
    handleAuthError baseUrl (.invalidToken message) =
      { status := 401, statusText := "Unauthorized",
        wwwAuthenticate := some ("Bearer error=\"invalid_token\", error_description=\""
          ++ message ++ "\", resource_metadata=\""
          ++ getOAuthProtectedResourceMetadataUrl baseUrl ++ "\"") } ∧
    handleAuthError baseUrl (.insufficientScope message) =
      { status := 403, statusText := "Forbidden", wwwAuthenticate := none } ∧
    handleAuthError baseUrl (.other message) =
      { status := 500, statusText := "Internal Server Error", wwwAuthenticate := none } ∧
    authenticate cfg verify getTok request =
      (authenticateCore verify getTok request).mapError
        (handleAuthError (getBaseUrl cfg request)) := by
  refine ⟨rfl, rfl, rfl, rfl, rfl, ?_⟩
  unfold authenticate Except.mapError
  cases authenticateCore verify getTok request <;> rfl

/-- C4: the session's scopes are the non-empty tokens of the space-split scope string,
the empty list when the scope claim is absent or not a string, and the example scope
string yields exactly the two tool scopes as a set, regardless of extra spaces and of
ordering. -/
theorem session_scopes_split (decoded : Claims) (accessToken : String) :
    sessionScopes none = [] ∧
    sessionScopes (some "tool:whoami tool:greet") = ["tool:whoami", "tool:greet"] ∧
    (sessionScopes (some " tool:greet   tool:whoami ")).toFinset =
      (["tool:whoami", "tool:greet"] : List String).toFinset ∧
    (∀ str t, t ∈ sessionScopes (some str) ↔ t ∈ jsSplitSpace str ∧ t ≠ "") ∧
    (∀ session, sessionFromClaims decoded accessToken = .ok session →
      session.scopes = sessionScopes decoded.scope) := by
  refine ⟨rfl, by decide, by decide, ?_, ?_⟩
  · intro str t
    simp [sessionScopes, List.mem_filter, bne_iff_ne]
  · intro session hok
    obtain ⟨-, cid, rfl, -⟩ := sessionFromClaims_ok_elim decoded accessToken session hok
    rfl

/-- C5: a verified payload whose sub claim is absent or the empty string always fails
session construction with the missing-subject InvalidTokenError, regardless of every
other claim, and never yields a session. -/
theorem missing_subject_fails (decoded : Claims) (accessToken : String)
    (hsub : decoded.sub = none ∨ decoded.sub = some "") :
    sessionFromClaims decoded accessToken =
      .error (.invalidToken "Token is missing required subject (sub) claim") := by
  have h : isNonEmptyString decoded.sub = false := by
    rcases hsub with h | h <;> rw [h] <;> rfl
  unfold sessionFromClaims
  rw [h]
  rfl

/-- Witness for C5 at a concrete payload with every other claim valid. -/
theorem missing_subject_fails_witness :
    sessionFromClaims claimsNoSub "token.value" =
      .error (.invalidToken "Token is missing required subject (sub) claim") :=
  missing_subject_fails claimsNoSub "token.value" (Or.inl rfl)

/-- C6: for a payload with a valid subject, the session's client identity is the
client_id claim when present and non-empty, else the azp claim when present and
non-empty, and construction fails with the missing-client-identity InvalidTokenError
when neither is present and non-empty. -/
theorem client_identity_selection (decoded : Claims) (accessToken : String)
    (hsub : isNonEmptyString decoded.sub = true) :
    (sessionFromClaims decoded accessToken =
      match specClientId decoded with
      | some cid => .ok (buildSession decoded accessToken cid)
      | none =>
          .error (.invalidToken
            "Token is missing required client identification (client_id or azp claim).")) ∧
    ∀ cid, (buildSession decoded accessToken cid).clientId = cid := by
  refine ⟨?_, fun cid => rfl⟩
  unfold sessionFromClaims specClientId
  simp only [hsub, Bool.not_true, Bool.false_eq_true, if_false]
  rw [nonEmptyOnly_eq_guard, nonEmptyOnly_eq_guard]
  cases hci : isNonEmptyString decoded.client_id with
  | true =>
    obtain ⟨c, hc, -⟩ := (isNonEmptyString_iff _).mp hci
    simp [hci, hc]
  | false =>
    cases ha : isNonEmptyString decoded.azp with
    | true =>
      obtain ⟨a, hc, -⟩ := (isNonEmptyString_iff _).mp ha
      simp [hci, ha, hc]
    | false =>
      simp [hci, ha]

/-- Witness for C6 at a concrete payload whose client_id is empty and whose azp is
usable. -/
theorem client_identity_selection_witness :
    (sessionFromClaims claimsAzpOnly "token.value" =
      match specClientId claimsAzpOnly with
      | some cid => .ok (buildSession claimsAzpOnly "token.value" cid)
      | none =>
          .error (.invalidToken
            "Token is missing required client identification (client_id or azp claim).")) ∧
    ∀ cid, (buildSession claimsAzpOnly "token.value" cid).clientId = cid :=
  client_identity_selection claimsAzpOnly "token.value" (by decide)

/-- C7 counterexample: with no configured server URL, a Host of example.com and an
X-Forwarded-Proto of ftp, the code computes http://example.com while the claim as
stated (scheme taken from X-Forwarded-Proto whenever present) computes
ftp://example.com. -/
theorem getBaseUrl_claim_counterexample :
    getBaseUrl cfgLocal reqForwardedFtp = "http://example.com" ∧
    getBaseUrlClaimed cfgLocal reqForwardedFtp = "ftp://example.com" ∧
    getBaseUrl cfgLocal reqForwardedFtp ≠ getBaseUrlClaimed cfgLocal reqForwardedFtp := by
  refine ⟨by decide, by decide, by decide⟩

/-- C7 (amended): the effective base URL is the configured server URL when one is
configured (truthy); else, when a truthy Host or X-Forwarded-Host is present,
scheme://host with the scheme taken from X-Forwarded-Proto only when that value is
exactly https or http and otherwise (absent or any other value) the configured default
scheme; else the default server URL. -/
theorem getBaseUrl_amended (cfg : Config) (request : Request) :
    getBaseUrl cfg request = getBaseUrlAmendedSpec cfg request := by
  unfold getBaseUrl getBaseUrlAmendedSpec
  cases ht : truthy cfg.mcpServerUrlEnv with
  | true => simp [ht]
  | false =>
    simp only [ht, Bool.false_eq_true, if_false]
    cases hh : truthyStr (jsStrOr request.headers.host request.headers.xForwardedHost) with
    | none => rfl
    | some host =>
      show (if request.headers.xForwardedProto = some "https" then "https"
        else if request.headers.xForwardedProto = some "http" then "http"
        else if jsStartsWith (MCP_SERVER_URL cfg) "https" then "https" else "http")
          ++ "://" ++ host =
        schemeAmended cfg request.headers.xForwardedProto ++ "://" ++ host
      rw [protocol_eq_schemeAmended]

/-- C8: for every payload from which a session is built, whose expiry (verification
guarantees it lies strictly in the future) is not the zero timestamp, the expiry is
copied through unchanged, and each extra attribute equals the claim value exactly when
present and non-empty and is omitted otherwise. -/
theorem session_expiry_and_extras (decoded : Claims) (accessToken : String)
    (session : FastMCPAuthSession)
    (hok : sessionFromClaims decoded accessToken = .ok session)
    (hexp : decoded.exp ≠ some 0) :
    session.expiresAt = decoded.exp ∧
    session.extra.sub = decoded.sub ∧
    session.extra.sub = nonEmptyOnly decoded.sub ∧
    session.extra.client_id = nonEmptyOnly decoded.client_id ∧
    session.extra.azp = nonEmptyOnly decoded.azp ∧
    session.extra.name = nonEmptyOnly decoded.name ∧
    session.extra.email = nonEmptyOnly decoded.email := by
  obtain ⟨hsub, cid, rfl, -⟩ := sessionFromClaims_ok_elim decoded accessToken session hok
  refine ⟨?_, rfl, ?_, ?_, ?_, ?_, ?_⟩
  · show (match decoded.exp with
      | some e => if e ≠ 0 then some e else none
      | none => none) = decoded.exp
    cases hx : decoded.exp with
    | none => rfl
    | some e =>
      have he : e ≠ 0 := fun h => hexp (by rw [hx, h])
      simp [he]
  · rw [nonEmptyOnly_eq_guard, hsub]
    rfl
  · exact (nonEmptyOnly_eq_guard decoded.client_id).symm
  · exact (nonEmptyOnly_eq_guard decoded.azp).symm
  · exact (nonEmptyOnly_eq_guard decoded.name).symm
  · exact (nonEmptyOnly_eq_guard decoded.email).symm

/-- Witness for C8 at a fully-populated concrete payload. -/
theorem session_expiry_and_extras_witness :
    (buildSession claimsFull "token.value" "client-1").expiresAt = claimsFull.exp ∧
    (buildSession claimsFull "token.value" "client-1").extra.sub = claimsFull.sub ∧
    (buildSession claimsFull "token.value" "client-1").extra.sub =
      nonEmptyOnly claimsFull.sub ∧
    (buildSession claimsFull "token.value" "client-1").extra.client_id =
      nonEmptyOnly claimsFull.client_id ∧
    (buildSession claimsFull "token.value" "client-1").extra.azp =
      nonEmptyOnly claimsFull.azp ∧
    (buildSession claimsFull "token.value" "client-1").extra.name =
      nonEmptyOnly claimsFull.name ∧
    (buildSession claimsFull "token.value" "client-1").extra.email =
      nonEmptyOnly claimsFull.email :=
  session_expiry_and_extras claimsFull "token.value"
    (buildSession claimsFull "token.value" "client-1") rfl (by decide)

/-- C9 counterexample: on a concrete credential-less request the entry point itself
already returns the fully-constructed client-visible HTTP response — status code 401,
status text and the complete WWW-Authenticate header value — rather than a tagged
error left for the transport caller to map. -/
theorem authenticate_constructs_response_counterexample :
    authenticate cfgLocal verifyNever getTokenNoop reqNoAuth =
      .error
        { status := 401
          statusText := "Unauthorized"
          wwwAuthenticate := some ("Bearer error=\"invalid_token\", error_description=\"No Bearer token found in request\", resource_metadata=\"http://localhost:3001/.well-known/oauth-protected-resource\"") } := by
  rfl

/-- C9 (amended): every failure of the try block is surfaced internally as a tagged
error, but the entry point converts it itself — via the challenge mapping at the
request's effective base URL — into the client-visible HTTP response it throws; the
caller receives a ready response, not a tagged error to map. -/
theorem authenticate_renders_core_failure (cfg : Config)
    (verify : String → Except AuthError Claims) (getTok : Headers → Except String String)
    (request : Request) (e : AuthError)
    (hcore : authenticateCore verify getTok request = .error e) :
    authenticate cfg verify getTok request =
      .error (handleAuthError (getBaseUrl cfg request) e) := by
  unfold authenticate
  rw [hcore]

/-- Witness for the amended C9 at the concrete credential-less request. -/
theorem authenticate_renders_core_failure_witness :
    authenticate cfgLocal verifyNever getTokenNoop reqNoAuth =
      .error (handleAuthError (getBaseUrl cfgLocal reqNoAuth)
        (.invalidRequest "No Bearer token found in request")) :=
  authenticate_renders_core_failure cfgLocal verifyNever getTokenNoop reqNoAuth
    (.invalidRequest "No Bearer token found in request") rfl

/-- C10: for a request whose Authorization header is a Bearer value, the secondary
getToken validation call cannot influence the outcome (any error it throws is
swallowed), the extracted credential is the header value with the Bearer prefix
removed and trimmed, the outcome depends on the verifier only through its value at
that credential, and a returned session stores exactly that credential. -/
theorem getToken_swallowed_and_token_extracted (cfg : Config)
    (verify : String → Except AuthError Claims)
    (getTok1 getTok2 : Headers → Except String String) (request : Request)
    (authHeader : String)
    (hraw : headerFirst (jsHeaderOr request.headers.authorization
      request.headers.authorizationCap) = some authHeader)
    (hb : jsStartsWith authHeader "Bearer " = true) :
    extractBearerToken request.headers = some (jsTrim (jsDrop authHeader 7)) ∧
    authenticate cfg verify getTok1 request = authenticate cfg verify getTok2 request ∧
    (∀ v1 v2 : String → Except AuthError Claims,
      v1 (jsTrim (jsDrop authHeader 7)) = v2 (jsTrim (jsDrop authHeader 7)) →
      authenticate cfg v1 getTok1 request = authenticate cfg v2 getTok1 request) ∧
    (∀ session, authenticate cfg verify getTok1 request = .ok session →
      session.token = jsTrim (jsDrop authHeader 7)) := by
  have hne : authHeader ≠ "" := by
    intro h
    rw [h] at hb
    exact absurd hb (by decide)
  have hext : extractBearerToken request.headers = some (jsTrim (jsDrop authHeader 7)) := by
    unfold extractBearerToken
    rw [hraw]
    show (if authHeader ≠ "" ∧ jsStartsWith authHeader "Bearer " = true
      then some (jsTrim (jsDrop authHeader 7)) else none) = some (jsTrim (jsDrop authHeader 7))
    rw [if_pos ⟨hne, hb⟩]
  refine ⟨hext, rfl, ?_, ?_⟩
  · intro v1 v2 hv
    unfold authenticate
    rw [authenticateCore_some_token v1 getTok1 request _ hext,
      authenticateCore_some_token v2 getTok1 request _ hext, hv]
  · intro session hs
    rw [authenticate_ok_iff_core] at hs
    obtain ⟨tok, decoded, he, hv', hsess⟩ := (authenticateCore_ok_iff _ _ _ _).mp hs
    obtain rfl : tok = jsTrim (jsDrop authHeader 7) := Option.some.inj (he.symm.trans hext)
    obtain ⟨hsub, cid, rfl, -⟩ := sessionFromClaims_ok_elim decoded _ session hsess
    rfl

/-- Witness for C10 at a concrete Bearer request, applied with a throwing and a
succeeding getToken oracle. -/
theorem getToken_swallowed_and_token_extracted_witness :
    extractBearerToken reqBearer.headers = some (jsTrim (jsDrop "Bearer abc.def.ghi " 7)) ∧
    authenticate cfgLocal verifyFull getTokenNoop reqBearer =
      authenticate cfgLocal verifyFull getTokenOk reqBearer ∧
    (∀ v1 v2 : String → Except AuthError Claims,
      v1 (jsTrim (jsDrop "Bearer abc.def.ghi " 7)) =
        v2 (jsTrim (jsDrop "Bearer abc.def.ghi " 7)) →
      authenticate cfgLocal v1 getTokenNoop reqBearer =
        authenticate cfgLocal v2 getTokenNoop reqBearer) ∧
    (∀ session, authenticate cfgLocal verifyFull getTokenNoop reqBearer = .ok session →
      session.token = jsTrim (jsDrop "Bearer abc.def.ghi " 7)) :=
  getToken_swallowed_and_token_extracted cfgLocal verifyFull getTokenNoop getTokenOk
    reqBearer "Bearer abc.def.ghi " rfl (by decide)

end FastMCPAuth0
